import Mathlib

/-!
Verification of the AgriDrone-Server LLM guidance pipeline.

This file gives a shallow embedding of the core of the repository:

* `server/src/services/llmAdapter.js` — the safety filter
  (`isUnsafeRequest`), the Groq chat-completion gateway
  (`generateChatCompletion`, including the disclaimer post-processing),
  and the structured-recommendation parser
  (`parseRecommendationResponse`);
* `server/src/routes/recommendations.js` — the `POST /generate`
  handler (baseline lookup, AI merge, database fallback, terminal 503);
* `server/src/routes/chat.js` — the conversation assembly handed to the
  gateway;
* `server/src/models/Recommendation.js` — `normalizeKey` and
  `getSafeRecommendation`;
* `server/src/models/ChatMessage.js` — `getRecentContext` and
  `cleanupOldMessages`.

External effects are modelled as explicit inputs: the `fetch` outcome
is a `FetchOutcome` value, the Mongo recommendation store is a function
`String → Option RecommendationDoc`, the chat-message collection is a
`List ChatTurn`, and the platform `JSON.parse` is an abstract
`String → Option JsObj` parameter (the repository calls the JS runtime
here, so every theorem about the parser is stated for an arbitrary
decoder).  JavaScript strings are modelled as `String` / `List Char`,
JS values as the inductive `JsValue`, and timestamps as `Int`
milliseconds.
-/

/-! ## List-of-characters machinery

`containsSub needle hay` models JavaScript's `String.includes` and the
substring search done by an unanchored regular-expression literal:
it is true iff `needle` occurs contiguously inside `hay`. -/

def containsSub (needle : List Char) : List Char → Bool
  | [] => needle.isPrefixOf []
  | c :: cs => needle.isPrefixOf (c :: cs) || containsSub needle cs

/-- Boolean prefix test reflected to an existential decomposition. -/
theorem isPrefixOf_iff_exists (n h : List Char) :
    n.isPrefixOf h = true ↔ ∃ t, h = n ++ t := by
  induction n generalizing h with
  | nil => simp [List.isPrefixOf]
  | cons a as ih =>
    cases h with
    | nil => simp [List.isPrefixOf]
    | cons b bs =>
      simp only [List.isPrefixOf, Bool.and_eq_true, beq_iff_eq, ih]
      constructor
      · rintro ⟨rfl, t, rfl⟩; exact ⟨t, rfl⟩
      · rintro ⟨t, ht⟩
        injection ht with h1 h2
        exact ⟨h1.symm, t, h2⟩

/-- Substring search reflected to an existential decomposition. -/
theorem containsSub_iff (n h : List Char) :
    containsSub n h = true ↔ ∃ p q, h = p ++ n ++ q := by
  induction h with
  | nil =>
    simp only [containsSub, isPrefixOf_iff_exists]
    constructor
    · rintro ⟨t, ht⟩; exact ⟨[], t, ht⟩
    · rintro ⟨p, q, hpq⟩
      have hnil : p = [] ∧ n = [] ∧ q = [] := by
        simpa [eq_comm, List.append_eq_nil] using hpq
      exact ⟨[], by simp [hnil.2.1]⟩
  | cons c cs ih =>
    simp only [containsSub, Bool.or_eq_true, isPrefixOf_iff_exists, ih]
    constructor
    · rintro (⟨t, ht⟩ | ⟨p, q, hpq⟩)
      · exact ⟨[], t, by simpa using ht⟩
      · exact ⟨c :: p, q, by simp [hpq]⟩
    · rintro ⟨p, q, hpq⟩
      cases p with
      | nil => exact Or.inl ⟨q, by simpa using hpq⟩
      | cons x xs =>
        injection hpq with h1 h2
        exact Or.inr ⟨xs, q, h2⟩

theorem containsSub_refl (n : List Char) : containsSub n n = true :=
  (containsSub_iff n n).mpr ⟨[], [], by simp⟩

theorem containsSub_append_left {n h : List Char} (g : List Char)
    (hc : containsSub n h = true) : containsSub n (g ++ h) = true := by
  rcases (containsSub_iff n h).mp hc with ⟨p, q, rfl⟩
  exact (containsSub_iff n _).mpr ⟨g ++ p, q, by simp⟩

theorem containsSub_trans {a b c : List Char}
    (hab : containsSub a b = true) (hbc : containsSub b c = true) :
    containsSub a c = true := by
  rcases (containsSub_iff b c).mp hbc with ⟨r, s, rfl⟩
  rcases (containsSub_iff a b).mp hab with ⟨p, q, rfl⟩
  exact (containsSub_iff a _).mpr ⟨r ++ p, q ++ s, by simp⟩

/-- `jsIncludes hay needle` models `hay.includes(needle)` on JS strings. -/
def jsIncludes (hay needle : String) : Bool :=
  containsSub needle.data hay.data

/-- Whitespace class of the JavaScript regex `\s` / `String.trim`,
restricted to the ASCII range (the repository only manipulates ASCII
whitespace). -/
def isJsWs (c : Char) : Bool :=
  c = ' ' || c = '\t' || c = '\n' || c = '\r' || c = '\x0b' || c = '\x0c'

/-- `String.prototype.trim`: strip whitespace from both ends. -/
def jsTrim (l : List Char) : List Char :=
  ((l.dropWhile isJsWs).reverse.dropWhile isJsWs).reverse

def jsTrimStr (s : String) : String := String.mk (jsTrim s.data)

/-! ## SafetyFilter (`llmAdapter.js` lines 26-65)

The constructor installs ten case-insensitive regular expressions and
`isUnsafeRequest` returns true iff one of them matches.  The three
pattern shapes that occur are a plain literal, `a.?b` (at most one
non-newline character between the two literals) and `a.*b` (the two
literals on the same line, in order).  Case-insensitivity is modelled
by lowercasing the subject first; the pattern literals are already
lower-case. -/

def notNL (c : Char) : Bool := c ≠ '\n' && c ≠ '\r'

/-- Match of the regex `a.?b` (with `a`, `b` literals) anywhere in the
subject: `a` immediately followed by `b`, or by one non-newline
character and then `b`. -/
def matchOpt1 (a b : List Char) : List Char → Bool
  | [] => a.isPrefixOf [] && b.isPrefixOf []
  | c :: cs =>
    (a.isPrefixOf (c :: cs) &&
      (let r := (c :: cs).drop a.length
       b.isPrefixOf r ||
         (match r with
          | [] => false
          | d :: r2 => notNL d && b.isPrefixOf r2)))
    || matchOpt1 a b cs

/-- Match of the regex `a.*b` (with `a`, `b` literals) anywhere in the
subject: an occurrence of `a` followed, on the same line, by an
occurrence of `b` (the default `.` does not cross line breaks). -/
def matchStar (a b : List Char) : List Char → Bool
  | [] => a.isPrefixOf [] && b.isPrefixOf []
  | c :: cs =>
    (a.isPrefixOf (c :: cs) &&
      containsSub b (((c :: cs).drop a.length).takeWhile notNL))
    || matchStar a b cs

def lowerData (s : String) : List Char := s.data.map Char.toLower

/-- `LLMAdapter.isUnsafeRequest`: true iff one of the ten installed
patterns matches the message (case-insensitively). -/
def isUnsafeRequest (message : String) : Bool :=
  let m := lowerData message
  matchOpt1 ("api".data) ("key".data) m
  || containsSub ("secret".data) m
  || containsSub ("password".data) m
  || containsSub ("token".data) m
  || containsSub ("credential".data) m
  || matchStar ("mixing".data) ("chemical".data) m
  || matchStar ("chemical".data) ("mix".data) m
  || matchStar ("exact".data) ("dosage".data) m
  || matchStar ("pesticide".data) ("combination".data) m
  || matchStar ("combine".data) ("pesticide".data) m

/-! ## Fixed textual constants of the core -/

/-- The fixed safety disclaimer sentence of `llmAdapter.js`
(lines 109, 156, 288, 317). -/
def disclaimerText : String :=
  "Guidance only — confirm with a local agriculture technician/DA office for accurate diagnosis and treatment."

/-- The shorter marker also accepted by the append guard
(`llmAdapter.js` line 157). -/
def guidanceOnlyText : String := "Guidance only"

/-- The canned refusal content returned when the safety filter trips
(`llmAdapter.js` line 109). -/
def refusalContent : String :=
  "I cannot provide that information as it may be unsafe. I don't share or request API keys, passwords, or secrets. For chemical-specific questions (exact dosages, mixing ratios), please consult a licensed agriculture professional or your local DA office.\n\nGuidance only — confirm with a local agriculture technician/DA office for accurate diagnosis and treatment."

/-- Default model identifier (`llmAdapter.js` line 11, fallback value). -/
def defaultModel : String := "llama-3.1-8b-instant"

/-! ## ModelGateway (`generateChatCompletion`, `llmAdapter.js` lines 98-173) -/

structure ChatMsg where
  role : String
  content : String
deriving DecidableEq, Repr

structure ChatReply where
  content : String
  modelName : String
  done : Bool
deriving DecidableEq, Repr

/-- Outcome of the single `fetch` to the external chat-completion
endpoint: a thrown network error, or an HTTP response with its `ok`
flag, status, status text, the value found at
`choices[0].message.content` (absent when any link of the optional
chain is missing) and the reported model name. -/
inductive FetchOutcome where
  | netFail (msg : String)
  | resp (ok : Bool) (status : Nat) (statusText : String)
      (content : Option String) (modelName : String)
deriving DecidableEq, Repr

/-- Disclaimer post-processing (`llmAdapter.js` lines 153-159):
append the fixed disclaimer unless the content already includes it or
already includes the substring "Guidance only". -/
def enforceDisclaimer (content : String) : String :=
  if jsIncludes content disclaimerText || jsIncludes content guidanceOnlyText then
    content
  else
    jsTrimStr content ++ "\n\n" ++ disclaimerText

/-- Phase reached by `generateChatCompletion` before any network
traffic: a missing API key throws, a tripped safety filter returns the
canned refusal without calling `fetch`, otherwise the request
proceeds to the network. -/
inductive GatePhase where
  | throwMissingKey
  | refuse
  | proceed
deriving DecidableEq, Repr

/-- Pre-network control flow of `generateChatCompletion`
(`llmAdapter.js` lines 100-114).  Note that the code computes
`messages.find(m => m.role === 'user')`, which is the FIRST message
with role `user` in the list (its own comment says "last user
message"). -/
def safetyGate (apiKey : Option String) (messages : List ChatMsg) : GatePhase :=
  match apiKey with
  | none => .throwMissingKey
  | some _ =>
    match messages.find? (fun m => m.role == "user") with
    | some m => if isUnsafeRequest m.content then .refuse else .proceed
    | none => .proceed

/-- `LLMAdapter.generateChatCompletion`: the whole call, with the
`fetch` outcome passed in explicitly.  Every thrown error is wrapped
as `Failed to generate response: ...` by the surrounding catch
(`llmAdapter.js` lines 169-172). -/
def generateChatCompletion (apiKey : Option String) (messages : List ChatMsg)
    (net : FetchOutcome) : Except String ChatReply :=
  match safetyGate apiKey messages with
  | .throwMissingKey =>
      .error "Failed to generate response: Groq API key is not configured. Check GROQ_API_KEY environment variable."
  | .refuse => .ok ⟨refusalContent, defaultModel, true⟩
  | .proceed =>
    match net with
    | .netFail msg => .error ("Failed to generate response: " ++ msg)
    | .resp ok status statusText content modelName =>
      if ok then
        .ok ⟨enforceDisclaimer (content.getD ""), modelName, true⟩
      else
        .error ("Failed to generate response: Groq API error: " ++ toString status ++ " " ++ statusText)

/-! ## RecommendationParser (`parseRecommendationResponse`,
`llmAdapter.js` lines 266-320)

The JS values produced by `JSON.parse` are modelled by `JsValue`; the
decoder itself is a platform primitive, so it enters the embedding as
an abstract `String → Option JsObj` argument (a JSON text that starts
with `{` parses, when it parses at all, to an object). -/

inductive JsValue where
  | null
  | boolean (b : Bool)
  | num (n : Int)
  | str (s : String)
  | arr (elems : List JsValue)
  | obj (fields : List (String × JsValue))

abbrev JsObj := List (String × JsValue)

/-- Property read `o[k]`: `none` models `undefined`. -/
def getField (o : JsObj) (k : String) : Option JsValue :=
  match o with
  | [] => none
  | p :: ps => if p.1 == k then some p.2 else getField ps k

/-- Property write `o[k] = v`: overwrite the slot in place when the
key is present (JS objects keep the key's insertion position), append
otherwise. -/
def setField (o : JsObj) (k : String) (v : JsValue) : JsObj :=
  match o with
  | [] => [(k, v)]
  | p :: ps => if p.1 == k then (k, v) :: ps else p :: setField ps k v

/-- JavaScript falsiness of a defined JS value. -/
def falsy : JsValue → Bool
  | .null => true
  | .boolean b => !b
  | .num n => n == 0
  | .str s => s == ""
  | .arr _ => false
  | .obj _ => false

/-- The per-field test of `llmAdapter.js` line 282:
`!parsed[field] || (Array.isArray(parsed[field]) && parsed[field].length === 0)`,
with an absent property (`undefined`) being falsy. -/
def fieldMissing (o : JsObj) (f : String) : Bool :=
  match getField o f with
  | none => true
  | some v => falsy v || (match v with | .arr xs => xs.isEmpty | _ => false)

/-- The `required` list of `llmAdapter.js` line 281. -/
def requiredFields : List String :=
  ["summary", "symptoms", "causes", "treatmentSteps", "preventionSteps"]

/-- The canonical fallback object (`llmAdapter.js` lines 298-318),
returned whenever extraction, decoding or validation fails. -/
def fallbackRecommendation : JsObj :=
  [ ("summary", .str "Based on the analysis, this may indicate a citrus health issue that requires further assessment."),
    ("symptoms", .arr
      [ .str "Observe leaf discoloration, spots, or unusual growth patterns",
        .str "Check for lesions or abnormal textures",
        .str "Note any yellowing or wilting" ]),
    ("causes", .arr
      [ .str "Various environmental factors",
        .str "Possible pathogenic infection" ]),
    ("treatmentSteps", .arr
      [ .str "Remove and dispose of severely affected leaves properly",
        .str "Improve air circulation around the plant",
        .str "Ensure proper watering (not too wet/dry)",
        .str "Consult local DA office for specific treatment recommendations" ]),
    ("preventionSteps", .arr
      [ .str "Maintain proper plant spacing",
        .str "Regular monitoring and inspection",
        .str "Practice good sanitation (clean tools, remove debris)" ]),
    ("whenToEscalate", .arr
      [ .str "If symptoms spread rapidly to other plants",
        .str "If conventional treatments show no improvement after 2 weeks" ]),
    ("disclaimer", .str disclaimerText) ]

/-- Fuelled scanner for `stripMarker`; the fuel only bounds the
recursion depth and is always supplied as the subject's length, which
each step strictly decreases, so the fuel-exhausted branch is never
reached for non-empty markers. -/
def stripMarkerFuel (m : List Char) : Nat → List Char → List Char
  | 0, l => l
  | _, [] => []
  | fuel + 1, c :: cs =>
    if m.isPrefixOf (c :: cs) && !m.isEmpty then
      stripMarkerFuel m fuel (((c :: cs).drop m.length).dropWhile isJsWs)
    else
      c :: stripMarkerFuel m fuel cs

/-- One pass of `content.replace(/MARKER\s*/g, '')` for a literal
marker: every occurrence of the marker together with the following
whitespace run is removed, scanning left to right over the original
text.  The `!m.isEmpty` conjunct only guards the recursion; both
markers used by the code are non-empty, so it never changes the
result. -/
def stripMarker (m : List Char) (l : List Char) : List Char :=
  stripMarkerFuel m l.length l

/-- The cleaning stage of `parseRecommendationResponse`
(`llmAdapter.js` lines 268-271): strip every ```json marker, then
every ``` marker, then trim. -/
def cleanFences (content : String) : List Char :=
  jsTrim (stripMarker ("```".data) (stripMarker ("```json".data) content.data))

/-- Suffix of the subject starting at its first `{` (empty if none). -/
def dropUntilBrace : List Char → List Char
  | [] => []
  | c :: cs => if c = '{' then c :: cs else dropUntilBrace cs

/-- Prefix of the subject ending at its last `}`, if any `}` occurs. -/
def takeToLastClose : List Char → Option (List Char)
  | [] => none
  | c :: cs =>
    match takeToLastClose cs with
    | some t => some (c :: t)
    | none => if c = '}' then some [c] else none

/-- The extraction regex `/\x7b[\s\S]*\x7d/` of `llmAdapter.js`
line 274: the match, when it exists, runs from the first `{` of the
subject to the last `}` (greedy), and exists iff some `}` occurs after
the first `{`. -/
def jsonMatchL (cs : List Char) : Option (List Char) :=
  match dropUntilBrace cs with
  | [] => none
  | c :: rest =>
    match takeToLastClose rest with
    | some t => some (c :: t)
    | none => none

/-- Validation and disclaimer attachment (`llmAdapter.js` lines
281-290): if any required field is missing or an empty array the
thrown error lands in the catch and the fallback is returned,
otherwise the fixed disclaimer is attached to the parsed object. -/
def validateParsed (parsed : JsObj) : JsObj :=
  if (requiredFields.filter (fun f => fieldMissing parsed f)).isEmpty then
    setField parsed "disclaimer" (.str disclaimerText)
  else
    fallbackRecommendation

/-- `LLMAdapter.parseRecommendationResponse`, with `JSON.parse`
abstracted as `decode`. -/
def parseRecommendationResponse (decode : String → Option JsObj)
    (content : String) : JsObj :=
  match jsonMatchL (cleanFences content) with
  | none => fallbackRecommendation
  | some span =>
    match decode (String.mk span) with
    | none => fallbackRecommendation
    | some parsed => validateParsed parsed

/-- Decidable condition for the failure paths of the parser: no JSON
span found, the span does not decode, or a required field is missing
or an empty array. -/
def parseFails (decode : String → Option JsObj) (content : String) : Bool :=
  match jsonMatchL (cleanFences content) with
  | none => true
  | some span =>
    match decode (String.mk span) with
    | none => true
    | some parsed => !(requiredFields.filter (fun f => fieldMissing parsed f)).isEmpty

/-- Modelled from the spec: "locate the first balanced `{...}` span of
the cleaned text" — scan from the first `{`, tracking nesting depth,
and stop at the brace that closes it.  Defined only to compare the
spec's wording with the greedy regex the code actually uses. -/
def balancedTake : Nat → List Char → Option (List Char)
  | _, [] => none
  | d, c :: cs =>
    if c = '{' then (balancedTake (d + 1) cs).map (fun t => c :: t)
    else if c = '}' then
      if d ≤ 1 then some [c]
      else (balancedTake (d - 1) cs).map (fun t => c :: t)
    else (balancedTake d cs).map (fun t => c :: t)

/-- Modelled from the spec: the first balanced `{...}` span. -/
def specFirstBalancedSpan (cs : List Char) : Option (List Char) :=
  match dropUntilBrace cs with
  | [] => none
  | c :: rest => (balancedTake 1 rest).map (fun t => c :: t)

/-! ## Recommendation model (`models/Recommendation.js`) and the
`POST /generate` handler (`routes/recommendations.js` lines 579-669) -/

/-- A stored baseline recommendation document. -/
structure RecommendationDoc where
  diseaseKey : String
  displayName : String
  summary : String
  symptoms : List String
  causes : List String
  treatmentSteps : List String
  preventionSteps : List String
  severity : String
  whenToEscalate : List String
  references : List String
deriving DecidableEq, Repr

/-- The disclaimer sentence attached by
`Recommendation.getSafeRecommendation` (`models/Recommendation.js`
lines 1089-1094 of the bundled source) — note it is NOT the fixed
safety sentence used by the LLM adapter. -/
def dbDisclaimerText : String :=
  "This is guidance only. Always consult an agriculture expert for professional diagnosis and treatment confirmation."

/-- The object `{...doc, disclaimer}` returned by
`getSafeRecommendation`. -/
structure SafeRec where
  doc : RecommendationDoc
  disclaimer : String
deriving DecidableEq, Repr

def getSafeRecommendation (r : RecommendationDoc) : SafeRec :=
  ⟨r, dbDisclaimerText⟩

/-- Scanner for `collapseWs`: the flag records whether the previous
character belonged to a whitespace run that has already emitted its
hyphen. -/
def collapseWsAux : Bool → List Char → List Char
  | _, [] => []
  | inRun, c :: cs =>
    if isJsWs c then
      if inRun then collapseWsAux true cs else '-' :: collapseWsAux true cs
    else
      c :: collapseWsAux false cs

/-- Replace each maximal whitespace run by a single hyphen
(the `replace(/\s+/g, '-')` step of `normalizeKey`). -/
def collapseWs (l : List Char) : List Char :=
  collapseWsAux false l

/-- `Recommendation.normalizeKey`:
`key.toLowerCase().trim().replace(/\s+/g, '-')`. -/
def normalizeKey (key : String) : String :=
  String.mk (collapseWs (jsTrim (key.data.map Char.toLower)))

/-- The set-difference filter of the merge (`routes/recommendations.js`
lines 620-625): an AI step is kept iff it is not already present in
the baseline list.  `Array.includes` uses strict equality, so a
non-string AI element is never equal to a baseline string. -/
def strMem (l : List String) : JsValue → Bool
  | .str s => l.contains s
  | _ => false

/-- The `aiEnhancements` object built by the merge. -/
structure AiEnhancements where
  additionalNotes : Option JsValue
  contextualAdvice : Option JsValue
  enhancedTreatment : List JsValue
  enhancedPrevention : List JsValue

/-- The merge of a baseline with the AI result
(`routes/recommendations.js` lines 614-627).  `none` models the
`TypeError` thrown when `aiRecommendation.treatmentSteps` or
`.preventionSteps` is not an array (`.filter` is then undefined); the
surrounding try/catch turns that throw into the fallback path. -/
def mergeEnhanced (base : RecommendationDoc) (ai : JsObj) : Option AiEnhancements :=
  match getField ai "treatmentSteps", getField ai "preventionSteps" with
  | some (.arr ts), some (.arr ps) =>
    some ⟨getField ai "additionalNotes", getField ai "summary",
      ts.filter (fun v => !(strMem base.treatmentSteps v)),
      ps.filter (fun v => !(strMem base.preventionSteps v))⟩
  | _, _ => none

/-- Payload data of a `POST /generate` response. -/
inductive GenData where
  | enhanced (base : SafeRec) (aiEnhancements : AiEnhancements)
  | pure (ai : JsObj)
  | fallback (base : SafeRec)

/-- Shape of a `POST /generate` HTTP response. -/
structure GenResult where
  status : Nat
  success : Bool
  source : Option String
  data : Option GenData
  warning : Option String

def warningText : String :=
  "AI enhancement unavailable, returning base recommendation"

/-- The `POST /generate` handler (`routes/recommendations.js` lines
579-669), with the Mongo store abstracted as a lookup function and
the outcome of `llmAdapter.generateRecommendation` (a parsed object,
or a thrown gateway error) passed in explicitly.  The baseline is
looked up only when `enhanceExisting` is true; on a throw the catch
returns the baseline as `database-fallback` when one was found and a
terminal 503 otherwise. -/
def handleGenerateWith (diseaseKey : String) (enhanceExisting : Bool)
    (store : String → Option RecommendationDoc)
    (aiOutcome : Except String JsObj) : GenResult :=
  let normalizedKey := normalizeKey diseaseKey
  let base := if enhanceExisting then store normalizedKey else none
  match aiOutcome with
  | .ok ai =>
    match base with
    | some b =>
      match mergeEnhanced b ai with
      | some e =>
        ⟨200, true, some "ai-enhanced",
          some (.enhanced (getSafeRecommendation b) e), none⟩
      | none =>
        ⟨200, true, some "database-fallback",
          some (.fallback (getSafeRecommendation b)), some warningText⟩
    | none => ⟨200, true, some "ai-generated", some (.pure ai), none⟩
  | .error _ =>
    match base with
    | some b =>
      ⟨200, true, some "database-fallback",
        some (.fallback (getSafeRecommendation b)), some warningText⟩
    | none => ⟨503, false, none, none, none⟩

/-- The seeded `black-spot` baseline (`services/seedData.js`). -/
def blackSpotDoc : RecommendationDoc where
  diseaseKey := "black-spot"
  displayName := "Citrus Black Spot"
  summary := "Citrus Black Spot is a fungal disease that causes dark lesions on leaves and fruit, potentially reducing crop quality and yield."
  symptoms :=
    [ "Small dark brown to black spots on leaves",
      "Spots may have yellow halos around them",
      "Lesions can appear on fruit as well",
      "Severely affected leaves may drop prematurely",
      "Fruit spots can lead to cracking and quality loss" ]
  causes :=
    [ "Fungal infection by Phyllosticta citricarpa",
      "Warm, humid weather conditions favor development",
      "Poor air circulation around plants",
      "Overhead irrigation creating leaf wetness",
      "Infected plant debris left around trees" ]
  treatmentSteps :=
    [ "Remove and destroy affected leaves and fallen debris immediately",
      "Apply copper-based fungicide every 2-3 weeks during wet season",
      "Improve air circulation by pruning dense growth",
      "Switch to drip irrigation to avoid wetting leaves",
      "Apply protective fungicide sprays before rainy season starts" ]
  preventionSteps :=
    [ "Plant resistant citrus varieties when possible",
      "Ensure proper spacing between trees for air circulation",
      "Use drip irrigation instead of overhead sprinklers",
      "Apply preventive copper sprays monthly during high-risk periods",
      "Clean up and compost all fallen leaves and debris",
      "Avoid working in grove when leaves are wet" ]
  severity := "medium"
  whenToEscalate :=
    [ "If spots continue spreading despite treatment after 4-6 weeks",
      "If fruit quality is significantly affected",
      "If more than 25% of leaves are affected",
      "If you notice the disease spreading to other trees" ]
  references :=
    [ "Citrus Black Spot Management - University of Florida IFAS",
      "Fungicide Resistance Management Guidelines" ]

/-- A one-document store holding exactly the seeded black-spot
baseline. -/
def storeBlackSpotOnly : String → Option RecommendationDoc :=
  fun k => if k == "black-spot" then some blackSpotDoc else none

/-! ## ConversationContext (`models/ChatMessage.js`) and the chat
route's message assembly (`routes/chat.js`) -/

/-- A stored chat message document.  `createdAt` is a millisecond
timestamp. -/
structure ChatTurn where
  sessionId : String
  role : String
  content : String
  createdAt : Int
deriving DecidableEq, Repr

/-- The `sort({ createdAt: -1 })` order: newer documents first. -/
def newerFirst (a b : ChatTurn) : Prop := b.createdAt ≤ a.createdAt

instance : DecidableRel newerFirst :=
  fun a b => inferInstanceAs (Decidable (b.createdAt ≤ a.createdAt))

instance : IsTotal ChatTurn newerFirst :=
  ⟨fun a b => Int.le_total b.createdAt a.createdAt⟩

instance : IsTrans ChatTurn newerFirst :=
  ⟨fun _ _ _ hab hbc => le_trans hbc hab⟩

/-- `ChatMessage.getRecentContext` (`models/ChatMessage.js` lines
41-47): find by session, sort by `createdAt` descending, take
`limit`. -/
def getRecentContext (db : List ChatTurn) (sessionId : String) (limit : Nat) :
    List ChatTurn :=
  (List.insertionSort newerFirst
    (db.filter (fun t => t.sessionId == sessionId))).take limit

/-- The chronological window built by the chat route
(`routes/chat.js` lines 784-792): the recent context, reversed into
oldest-first order before it is handed to the prompt builder. -/
def conversationWindow (db : List ChatTurn) (sessionId : String) (limit : Nat) :
    List ChatTurn :=
  (getRecentContext db sessionId limit).reverse

def msPerDay : Int := 86400000

/-- `ChatMessage.cleanupOldMessages` (`models/ChatMessage.js` lines
50-59): delete every message with `createdAt` strictly before
`now - daysOld` days and return the deleted count.  The result is the
pair (remaining collection, deleted count). -/
def cleanupOldMessages (db : List ChatTurn) (now : Int) (daysOld : Int) :
    List ChatTurn × Nat :=
  let cutoffDate := now - daysOld * msPerDay
  ((db.filter (fun t => !(decide (t.createdAt < cutoffDate)))),
   (db.filter (fun t => decide (t.createdAt < cutoffDate))).length)

/-- The fixed system message prepended by `addSystemMessage`
(`routes/chat.js` lines 973-1005).  Only its role matters to the
safety gate; the content is carried verbatim. -/
def dalandanSystemMsg : ChatMsg where
  role := "system"
  content := "You are DalandanCare Assistant, a safety-focused agriculture guidance chatbot for dalandan/citrus leaf issues.\n\nNON-NEGOTIABLE RULES (YOU MUST FOLLOW):\n1) NEVER reveal or request secrets (API keys, tokens, passwords). If the user asks, refuse and explain it's unsafe.\n2) Do NOT claim a certain diagnosis from a single image or minimal info. Use \"likely/possible\" and ask 1–3 clarifying questions when needed.\n3) Do NOT invent facts, research, or citations. If unsure, say you are unsure and request more details.\n4) Do NOT provide hazardous instructions, including:\n   - Chemical mixing ratios, exact dosages, brand-specific pesticide directions, or combinations\n   - Instructions that could harm people/animals/environment\n   If asked, provide safe alternatives (IPM, sanitation) and advise consulting a licensed agriculture professional for chemical specifics.\n5) ALWAYS end your response with this disclaimer (exactly one sentence):\n   \"Guidance only — confirm with a local agriculture technician/DA office for accurate diagnosis and treatment.\"\n\nSTYLE REQUIREMENTS:\n- Practical, short, step-by-step bullets\n- Simple English. If the user asks for Tagalog, switch to Tagalog\n- Focus on: what to do today, what to monitor, prevention, and when to escalate\n\nAREAS OF EXPERTISE:\n- Dalandan (Philippine citrus) diseases: Citrus Black Spot, Citrus Canker, Citrus Greening (HLB), Healthy leaf identification\n- Prevention and organic treatments\n- Integrated Pest Management (IPM) approaches\n- When to consult professionals\n- Basic citrus farming practices in Philippine context\n\nRemember: You help real Filipino farmers. Be accurate, safe, and responsible."

def addSystemMessage (messages : List ChatMsg) : List ChatMsg :=
  dalandanSystemMsg :: messages

/-- The full message list the chat route assembles and passes to
`generateChatCompletion` (`routes/chat.js` lines 784-798, 820-821):
system message, then the chronological window projected to
role/content, then the new user message. -/
def chatMessagesFor (db : List ChatTurn) (sessionId : String)
    (message : String) : List ChatMsg :=
  addSystemMessage
    (((conversationWindow db sessionId 8).map
        (fun t => ChatMsg.mk t.role t.content)) ++ [ChatMsg.mk "user" message])

/-! ## Theorems: the gateway claims (C1, C2, C10) -/

/-- A two-turn prior conversation for the C1 failing input: one safe
user turn, one assistant turn. -/
def c1HistoryDb : List ChatTurn :=
  [ ⟨"s", "user", "Magandang umaga po", 1⟩,
    ⟨"s", "assistant", "Hello! How can I help with your citrus plants?", 2⟩ ]

/-- The unsafe final message of the C1 failing input (matches the
`exact.*dosage` and `mixing.*chemical` patterns). -/
def c1UnsafeMessage : String :=
  "What is the exact dosage when mixing chemicals for my trees?"

/-- Claim C1 (code bug): the code screens the FIRST user message of
the assembled list (`messages.find(m => m.role === 'user')`), not the
last one as its own comment and the spec state.  At the concrete
failing input — a session whose first user turn is harmless and whose
new, final user message trips the filter — the gate proceeds to the
network: the unsafe message reaches the external API and no refusal is
produced (the error of the network outcome is surfaced instead).  The
final conjunct shows the same unsafe message IS refused with the
canned reply whenever it is the first user message, e.g. in a fresh
session, which is also the only shape `generateRecommendation` ever
builds (system + one user message). -/
theorem safetyGate_screens_first_user_message_not_last :
    isUnsafeRequest c1UnsafeMessage = true
    ∧ (chatMessagesFor c1HistoryDb "s" c1UnsafeMessage).getLast?
        = some (ChatMsg.mk "user" c1UnsafeMessage)
    ∧ safetyGate (some "key-1") (chatMessagesFor c1HistoryDb "s" c1UnsafeMessage)
        = .proceed
    ∧ generateChatCompletion (some "key-1")
        (chatMessagesFor c1HistoryDb "s" c1UnsafeMessage) (.netFail "timeout")
        = .error "Failed to generate response: timeout"
    ∧ (∀ net, generateChatCompletion (some "key-1")
        [ChatMsg.mk "user" c1UnsafeMessage] net
        = .ok ⟨refusalContent, defaultModel, true⟩) :=
  ⟨by decide, by decide, by decide, by rfl, fun _ => by rfl⟩

/-- Claim C2 (counterexample): a successful gateway reply need not
contain the fixed disclaimer sentence at all — when the model output
contains the bare substring "Guidance only", the append guard of
`llmAdapter.js` line 157 skips the append and the content is returned
unchanged, without the full disclaimer sentence. -/
theorem generateChatCompletion_disclaimer_can_be_absent :
    generateChatCompletion (some "k") [ChatMsg.mk "user" "Hi po"]
        (.resp true 200 "OK" (some "Guidance only po.") "m")
      = .ok ⟨"Guidance only po.", "m", true⟩
    ∧ jsIncludes "Guidance only po." disclaimerText = false :=
  ⟨by rfl, by decide⟩

/-- Claim C2 (amended): the gateway appends the disclaimer exactly
when the returned content includes neither the full disclaimer
sentence nor the substring "Guidance only"; when either is already
included the content is returned unchanged (so the append is never
performed twice).  Consequently every successful reply includes the
substring "Guidance only" — but, as the counterexample shows, not
necessarily the full disclaimer sentence. -/
theorem enforceDisclaimer_conditional_append (c d : String)
    (hc : (jsIncludes c disclaimerText || jsIncludes c guidanceOnlyText) = false)
    (hd : (jsIncludes d disclaimerText || jsIncludes d guidanceOnlyText) = true) :
    enforceDisclaimer c = jsTrimStr c ++ "\n\n" ++ disclaimerText
    ∧ enforceDisclaimer d = d
    ∧ jsIncludes (enforceDisclaimer c) disclaimerText = true
    ∧ jsIncludes (enforceDisclaimer c) guidanceOnlyText = true
    ∧ jsIncludes (enforceDisclaimer d) guidanceOnlyText = true := by
  have hgd : containsSub guidanceOnlyText.data disclaimerText.data = true := by decide
  have happ : enforceDisclaimer c = jsTrimStr c ++ "\n\n" ++ disclaimerText := by
    simp only [enforceDisclaimer, hc, Bool.false_eq_true, if_false]
  have hkeep : enforceDisclaimer d = d := by
    simp only [enforceDisclaimer, hd, if_true]
  have hinc : jsIncludes (enforceDisclaimer c) disclaimerText = true := by
    rw [happ]
    show containsSub disclaimerText.data (jsTrimStr c ++ "\n\n" ++ disclaimerText).data = true
    rw [String.data_append]
    exact containsSub_append_left _ (containsSub_refl _)
  refine ⟨happ, hkeep, hinc, containsSub_trans hgd hinc, ?_⟩
  rw [hkeep]
  rcases Bool.or_eq_true _ _ |>.mp hd with h1 | h1
  · exact containsSub_trans hgd h1
  · exact h1

/-- Witness for the C2 amended theorem at concrete inputs. -/
theorem enforceDisclaimer_conditional_append_witness :
    enforceDisclaimer "Salamat po" = jsTrimStr "Salamat po" ++ "\n\n" ++ disclaimerText
    ∧ enforceDisclaimer disclaimerText = disclaimerText
    ∧ jsIncludes (enforceDisclaimer "Salamat po") disclaimerText = true
    ∧ jsIncludes (enforceDisclaimer "Salamat po") guidanceOnlyText = true
    ∧ jsIncludes (enforceDisclaimer disclaimerText) guidanceOnlyText = true :=
  enforceDisclaimer_conditional_append "Salamat po" disclaimerText
    (by decide) (by decide)

/-- Claim C10: when the external API answers 2xx with no
`choices[0].message.content` path or with empty content, the gateway
does not throw: the content falls back to the empty string, the
disclaimer append fires, and the returned reply's content is the
fixed disclaimer preceded by a blank line — in particular it is
non-empty. -/
theorem generateChatCompletion_empty_content_gets_disclaimer
    (key : String) (messages : List ChatMsg) (status : Nat)
    (statusText mn : String) (cOpt : Option String)
    (hgate : safetyGate (some key) messages = .proceed)
    (hc : cOpt = none ∨ cOpt = some "") :
    generateChatCompletion (some key) messages
        (.resp true status statusText cOpt mn)
      = .ok ⟨"\n\n" ++ disclaimerText, mn, true⟩
    ∧ ("\n\n" ++ disclaimerText : String) ≠ ""
    ∧ jsIncludes ("\n\n" ++ disclaimerText) disclaimerText = true := by
  have hempty : enforceDisclaimer "" = "\n\n" ++ disclaimerText := by decide
  refine ⟨?_, by decide, by decide⟩
  rcases hc with rfl | rfl <;>
    simp [generateChatCompletion, hgate, hempty, Option.getD]

/-- Witness for the C10 theorem at a concrete safe message list and a
2xx response with a missing content path. -/
theorem generateChatCompletion_empty_content_witness :
    generateChatCompletion (some "k") [ChatMsg.mk "user" "Hi po"]
        (.resp true 200 "OK" none "m")
      = .ok ⟨"\n\n" ++ disclaimerText, "m", true⟩
    ∧ ("\n\n" ++ disclaimerText : String) ≠ ""
    ∧ jsIncludes ("\n\n" ++ disclaimerText) disclaimerText = true :=
  generateChatCompletion_empty_content_gets_disclaimer "k"
    [ChatMsg.mk "user" "Hi po"] 200 "OK" "m" none (by decide) (Or.inl rfl)

/-! ## Lemmas about the parser's building blocks -/

theorem getField_setField_self (o : JsObj) (k : String) (v : JsValue) :
    getField (setField o k v) k = some v := by
  induction o with
  | nil => simp [setField, getField]
  | cons p ps ih =>
    by_cases h : p.1 = k
    · simp [setField, getField, h]
    · simp [setField, getField, h, ih]

theorem getField_setField_ne (o : JsObj) (k k' : String) (v : JsValue)
    (hne : k' ≠ k) : getField (setField o k v) k' = getField o k' := by
  induction o with
  | nil => simp [setField, getField, Ne.symm hne]
  | cons p ps ih =>
    by_cases h : p.1 = k
    · simp [setField, getField, h, Ne.symm hne]
    · by_cases h2 : p.1 = k'
      · simp [setField, getField, h, h2, hne]
      · simp [setField, getField, h, h2, ih]

/-- `dropUntilBrace` splits off a prefix free of `{` and, when the
result is non-empty, its head is `{`. -/
theorem dropUntilBrace_spec (cs : List Char) :
    ∃ pre, cs = pre ++ dropUntilBrace cs ∧ (∀ c ∈ pre, c ≠ '{')
      ∧ ∀ d rest, dropUntilBrace cs = d :: rest → d = '{' := by
  induction cs with
  | nil => exact ⟨[], by simp [dropUntilBrace]⟩
  | cons c cs ih =>
    by_cases h : c = '{'
    · refine ⟨[], by simp [dropUntilBrace, h], by simp, ?_⟩
      intro d rest hd
      rw [show dropUntilBrace (c :: cs) = c :: cs by
        simp [dropUntilBrace, h]] at hd
      injection hd with h1 _
      rw [← h1]
      exact h
    · rcases ih with ⟨pre, heq, hpre, hhead⟩
      have hstep : dropUntilBrace (c :: cs) = dropUntilBrace cs := by
        simp [dropUntilBrace, h]
      refine ⟨c :: pre, ?_, ?_, ?_⟩
      · rw [hstep]
        exact congrArg (List.cons c) heq
      · intro x hx
        rcases List.mem_cons.mp hx with rfl | hx2
        · exact h
        · exact hpre x hx2
      · intro d rest hd
        rw [hstep] at hd
        exact hhead d rest hd

/-- When `takeToLastClose` fails there is no `}` in the subject. -/
theorem takeToLastClose_none (l : List Char) (h : takeToLastClose l = none) :
    ∀ c ∈ l, c ≠ '}' := by
  induction l with
  | nil => simp
  | cons c cs ih =>
    intro d hd
    simp only [takeToLastClose] at h
    split at h
    · cases h
    · rename_i hrec
      by_cases hc : c = '}'
      · rw [if_pos hc] at h
        cases h
      · rcases List.mem_cons.mp hd with rfl | hd2
        · exact hc
        · exact ih hrec d hd2

/-- When `takeToLastClose` succeeds, the returned prefix ends at the
last `}` of the subject: the remainder contains no `}`. -/
theorem takeToLastClose_some (l t : List Char) (h : takeToLastClose l = some t) :
    ∃ post, l = t ++ post ∧ (∀ c ∈ post, c ≠ '}') ∧ t.getLast? = some '}' := by
  induction l generalizing t with
  | nil => cases h
  | cons c cs ih =>
    simp only [takeToLastClose] at h
    split at h
    · rename_i t' hrec
      injection h with h1
      rcases ih t' hrec with ⟨post, heq, hpost, hlast⟩
      have ht' : t' ≠ [] := by
        intro hnil
        rw [hnil] at hlast
        simp at hlast
      refine ⟨post, ?_, hpost, ?_⟩
      · rw [← h1, heq]
        rfl
      · rw [← h1]
        cases t' with
        | nil => exact absurd rfl ht'
        | cons x xs =>
          rw [List.getLast?_cons_cons]
          exact hlast
    · rename_i hrec
      by_cases hc : c = '}'
      · rw [if_pos hc] at h
        injection h with h1
        refine ⟨cs, ?_, takeToLastClose_none cs hrec, ?_⟩
        · rw [← h1]
          rfl
        · rw [← h1, hc]
          rfl
      · rw [if_neg hc] at h
        cases h

/-- Changing an object so that one key reads the same value leaves the
per-field missing test unchanged at that key. -/
theorem fieldMissing_eq_of_getField_eq {o o' : JsObj} {k : String}
    (h : getField o k = getField o' k) : fieldMissing o k = fieldMissing o' k := by
  unfold fieldMissing
  rw [h]

/-! ## Theorems: the parser claims (C4, C5, C3) -/

/-- Claim C4: the parser is a total function by construction, and on
every failure path — no JSON span found, span does not decode, or a
required field missing or a present-but-empty list (the `parseFails`
condition) — it returns the canonical fallback object; that fallback
has every required field present and non-empty and carries the fixed
disclaimer; and the per-field test treats an absent property and a
present-but-empty array identically. -/
theorem parseRecommendationResponse_total_fallback
    (decode : String → Option JsObj) (content : String)
    (hfail : parseFails decode content = true) :
    parseRecommendationResponse decode content = fallbackRecommendation
    ∧ (∀ f ∈ requiredFields, fieldMissing fallbackRecommendation f = false)
    ∧ getField fallbackRecommendation "disclaimer" = some (.str disclaimerText)
    ∧ (∀ (o : JsObj) (k : String), getField o k = none → fieldMissing o k = true)
    ∧ (∀ (o : JsObj) (k : String), getField o k = some (.arr []) →
        fieldMissing o k = true) := by
  refine ⟨?_, by decide, by rfl, ?_, ?_⟩
  · cases hj : jsonMatchL (cleanFences content) with
    | none => simp [parseRecommendationResponse, hj]
    | some span =>
      cases hd : decode (String.mk span) with
      | none => simp [parseRecommendationResponse, hj, hd]
      | some parsed =>
        have hfail2 :
            (requiredFields.filter (fun f => fieldMissing parsed f)).isEmpty
              = false := by
          have hcopy := hfail
          simp only [parseFails, hj, hd, Bool.not_eq_true'] at hcopy
          exact hcopy
        simp [parseRecommendationResponse, hj, hd, validateParsed, hfail2]
  · intro o k hk
    simp [fieldMissing, hk]
  · intro o k hk
    simp [fieldMissing, hk, falsy]

/-- Witness for the C4 theorem: a model answer with no JSON object in
it falls back. -/
theorem parseRecommendationResponse_total_fallback_witness :
    parseRecommendationResponse (fun _ => none) "model said nothing useful"
      = fallbackRecommendation :=
  (parseRecommendationResponse_total_fallback (fun _ => none)
    "model said nothing useful" (by rfl)).1

/-- Claim C5 (amended): after fence stripping, the extraction span,
when one exists, runs from the FIRST `{` of the cleaned text to its
LAST `}` — the greedy match of the extraction regex, not the first
balanced span the spec describes — and the parser hands exactly that
span to the decoder. -/
theorem jsonMatch_greedy_span_characterization (content : String)
    (span : List Char) (h : jsonMatchL (cleanFences content) = some span) :
    (∃ pre post, cleanFences content = pre ++ span ++ post
      ∧ (∀ c ∈ pre, c ≠ '{') ∧ (∀ c ∈ post, c ≠ '}')
      ∧ span.head? = some '{' ∧ span.getLast? = some '}')
    ∧ ∀ decode : String → Option JsObj,
        parseRecommendationResponse decode content
          = match decode (String.mk span) with
            | none => fallbackRecommendation
            | some parsed => validateParsed parsed := by
  constructor
  · rcases hdrop : dropUntilBrace (cleanFences content) with - | ⟨c, rest⟩
    · rw [show jsonMatchL (cleanFences content) = none by
        simp [jsonMatchL, hdrop]] at h
      cases h
    · have h2 : (match takeToLastClose rest with
          | some t => some (c :: t)
          | none => (none : Option (List Char))) = some span := by
        rw [← h]
        simp [jsonMatchL, hdrop]
      rcases hlast : takeToLastClose rest with - | t
      · rw [hlast] at h2
        cases h2
      · rw [hlast] at h2
        injection h2 with h1
        rcases dropUntilBrace_spec (cleanFences content) with ⟨pre, heq, hpre, hhead⟩
        have hc : c = '{' := hhead c rest hdrop
        rcases takeToLastClose_some rest t hlast with ⟨post, hrest, hpost, htlast⟩
        refine ⟨pre, post, ?_, hpre, hpost, ?_, ?_⟩
        · rw [heq, hdrop, hrest, ← h1]
          simp
        · rw [← h1]
          simp [hc]
        · rw [← h1]
          cases t with
          | nil => simp at htlast
          | cons x xs =>
            rw [List.getLast?_cons_cons]
            exact htlast
  · intro decode
    simp only [parseRecommendationResponse, h]

/-- Witness for the C5 amended theorem at a concrete three-character
span. -/
theorem jsonMatch_greedy_span_characterization_witness :
    ∃ pre post, cleanFences "\x7bx\x7d" = pre ++ ("\x7bx\x7d").data ++ post
      ∧ (∀ c ∈ pre, c ≠ '{') ∧ (∀ c ∈ post, c ≠ '}')
      ∧ (("\x7bx\x7d").data.head? = some '{')
      ∧ (("\x7bx\x7d").data.getLast? = some '}') :=
  (jsonMatch_greedy_span_characterization "\x7bx\x7d" (("\x7bx\x7d").data)
    (by rfl)).1

/-- A complete, well-formed recommendation object standing for the
decode of the first balanced span of `c5Input`. -/
def c5BalancedObj : JsObj :=
  [ ("summary", .str "Likely black spot."),
    ("symptoms", .arr [ .str "spots" ]),
    ("causes", .arr [ .str "fungus" ]),
    ("treatmentSteps", .arr [ .str "prune" ]),
    ("preventionSteps", .arr [ .str "sanitize" ]) ]

/-- A model answer holding one complete JSON object followed by a
second (empty) one. -/
def c5Input : String :=
  "\x7b\"summary\": \"Likely black spot.\", \"symptoms\": [\"spots\"], \"causes\": [\"fungus\"], \"treatmentSteps\": [\"prune\"], \"preventionSteps\": [\"sanitize\"]\x7d \x7b\x7d"

/-- The first balanced span of `c5Input`: its first object alone. -/
def c5BalancedStr : String :=
  "\x7b\"summary\": \"Likely black spot.\", \"symptoms\": [\"spots\"], \"causes\": [\"fungus\"], \"treatmentSteps\": [\"prune\"], \"preventionSteps\": [\"sanitize\"]\x7d"

/-- A decoder consistent with `JSON.parse` on the two candidate spans
of `c5Input`: the first balanced span decodes to `c5BalancedObj`; the
greedy span (two juxtaposed objects) is not valid JSON and fails. -/
def c5Decode : String → Option JsObj :=
  fun s => if s == c5BalancedStr then some c5BalancedObj else none

set_option maxRecDepth 8000 in
/-- Claim C5 (counterexample): on `c5Input` the code's extraction
takes the greedy first-`{`-to-last-`}` span (the whole text), not the
first balanced span; the first balanced span decodes to a complete
recommendation object with every required field, yet the parser
returns the fallback because it attempted to decode the larger greedy
span. -/
theorem parse_decodes_greedy_not_first_balanced_span :
    (jsonMatchL (cleanFences c5Input)).map String.mk = some c5Input
    ∧ (specFirstBalancedSpan (cleanFences c5Input)).map String.mk
        = some c5BalancedStr
    ∧ jsonMatchL (cleanFences c5Input) ≠ specFirstBalancedSpan (cleanFences c5Input)
    ∧ c5Decode c5BalancedStr = some c5BalancedObj
    ∧ requiredFields.filter (fun f => fieldMissing c5BalancedObj f) = []
    ∧ parseRecommendationResponse c5Decode c5Input = fallbackRecommendation :=
  ⟨by decide, by decide, by decide, by rfl, by rfl, by rfl⟩

/-- An AI object that passes the required-field validation but has no
`whenToEscalate` property at all. -/
def c3NoEscalateObj : JsObj :=
  [ ("summary", .str "Likely a citrus issue."),
    ("symptoms", .arr [ .str "spots" ]),
    ("causes", .arr [ .str "fungus" ]),
    ("treatmentSteps", .arr [ .str "prune" ]),
    ("preventionSteps", .arr [ .str "sanitize" ]) ]

def c3Decode : String → Option JsObj := fun _ => some c3NoEscalateObj

/-- Claim C3 (counterexample): two objects leave the core in
violation of the claimed invariant.  A successfully parsed AI result
may lack `whenToEscalate` entirely (the validation never checks it)
and is still returned as-is, not replaced by the fallback; and the
database-fallback path returns `getSafeRecommendation`, whose
`disclaimer` is a different sentence from the fixed safety
disclaimer. -/
theorem structuredRecommendation_invariant_violations :
    getField (parseRecommendationResponse c3Decode "\x7bx\x7d") "whenToEscalate"
      = none
    ∧ (getField fallbackRecommendation "whenToEscalate").isSome = true
    ∧ parseRecommendationResponse c3Decode "\x7bx\x7d" ≠ fallbackRecommendation
    ∧ (getSafeRecommendation blackSpotDoc).disclaimer ≠ disclaimerText
    ∧ handleGenerateWith "black-spot" true storeBlackSpotOnly (.error "gateway down")
        = ⟨200, true, some "database-fallback",
            some (.fallback ⟨blackSpotDoc, dbDisclaimerText⟩), some warningText⟩ :=
  ⟨by rfl, by rfl,
    fun hcontra => absurd
      (congrArg (fun o => (getField o "whenToEscalate").isSome) hcontra)
      (by decide),
    by decide, by rfl⟩

/-- Claim C3 (amended): every object the parser returns (parsed or
fallback) carries the fixed safety disclaimer in its `disclaimer`
field and has `summary`, `symptoms`, `causes`, `treatmentSteps` and
`preventionSteps` present and non-empty — but `whenToEscalate` is not
validated, and the baseline-derived objects
(`getSafeRecommendation`, used by the database-fallback and merged
responses) instead carry the distinct sentence `dbDisclaimerText`. -/
theorem parse_output_disclaimer_and_required_fields
    (decode : String → Option JsObj) (content : String) (f : String)
    (hf : f ∈ requiredFields) :
    getField (parseRecommendationResponse decode content) "disclaimer"
      = some (.str disclaimerText)
    ∧ fieldMissing (parseRecommendationResponse decode content) f = false
    ∧ (∀ b : RecommendationDoc, (getSafeRecommendation b).disclaimer = dbDisclaimerText)
    ∧ dbDisclaimerText ≠ disclaimerText := by
  have hfd : f ≠ "disclaimer" := by
    simp only [requiredFields, List.mem_cons, List.not_mem_nil, or_false] at hf
    rcases hf with rfl | rfl | rfl | rfl | rfl <;> decide
  have hfall2 : getField fallbackRecommendation "disclaimer"
      = some (.str disclaimerText) := rfl
  have hfallf : fieldMissing fallbackRecommendation f = false :=
    (by decide : ∀ g ∈ requiredFields,
      fieldMissing fallbackRecommendation g = false) f hf
  have hvp : ∀ parsed : JsObj,
      getField (validateParsed parsed) "disclaimer" = some (.str disclaimerText)
      ∧ fieldMissing (validateParsed parsed) f = false := by
    intro parsed
    unfold validateParsed
    cases hemp : (requiredFields.filter (fun g => fieldMissing parsed g)).isEmpty with
    | false =>
      rw [if_neg (by simp)]
      exact ⟨hfall2, hfallf⟩
    | true =>
      rw [if_pos rfl]
      refine ⟨getField_setField_self parsed "disclaimer" _, ?_⟩
      have hnil : requiredFields.filter (fun g => fieldMissing parsed g) = [] := by
        simpa [List.isEmpty_iff] using hemp
      have hval : fieldMissing parsed f = false :=
        Bool.eq_false_iff.mpr ((List.filter_eq_nil_iff.mp hnil) f hf)
      rw [fieldMissing_eq_of_getField_eq
        (getField_setField_ne parsed "disclaimer" f (.str disclaimerText) hfd)]
      exact hval
  have hmain :
      getField (parseRecommendationResponse decode content) "disclaimer"
        = some (.str disclaimerText)
      ∧ fieldMissing (parseRecommendationResponse decode content) f = false := by
    cases hj : jsonMatchL (cleanFences content) with
    | none =>
      rw [show parseRecommendationResponse decode content = fallbackRecommendation by
        simp [parseRecommendationResponse, hj]]
      exact ⟨hfall2, hfallf⟩
    | some span =>
      cases hd : decode (String.mk span) with
      | none =>
        rw [show parseRecommendationResponse decode content = fallbackRecommendation by
          simp [parseRecommendationResponse, hj, hd]]
        exact ⟨hfall2, hfallf⟩
      | some parsed =>
        rw [show parseRecommendationResponse decode content = validateParsed parsed by
          simp [parseRecommendationResponse, hj, hd]]
        exact hvp parsed
  exact ⟨hmain.1, hmain.2, fun b => rfl, by decide⟩

/-- Witness for the C3 amended theorem at a concrete failing decode
and the `summary` field. -/
theorem parse_output_disclaimer_and_required_fields_witness :
    getField (parseRecommendationResponse (fun _ => none) "no json here")
        "disclaimer" = some (.str disclaimerText)
    ∧ fieldMissing (parseRecommendationResponse (fun _ => none) "no json here")
        "summary" = false :=
  ⟨(parse_output_disclaimer_and_required_fields (fun _ => none) "no json here"
      "summary" (by decide)).1,
   (parse_output_disclaimer_and_required_fields (fun _ => none) "no json here"
      "summary" (by decide)).2.1⟩

/-! ## Theorems: the `POST /generate` fallback chain and merge (C6, C7) -/

/-- Claim C6 (counterexample): a gateway failure with an existing
stored baseline for the normalized key still ends in the terminal 503
when `enhanceExisting` is false, because the handler only looks the
baseline up when `enhanceExisting` is true — the claim's
"if a stored baseline exists, return it as database-fallback" is
false as stated. -/
theorem generate_terminal_despite_existing_baseline :
    storeBlackSpotOnly (normalizeKey "BLACK SPOT") = some blackSpotDoc
    ∧ handleGenerateWith "BLACK SPOT" false storeBlackSpotOnly
        (.error "gateway down")
      = ⟨503, false, none, none, none⟩ :=
  ⟨by decide, by rfl⟩

/-- Claim C6 (amended): when the gateway call fails, the handler
returns the stored baseline (with source `database-fallback` and the
warning flag) exactly when `enhanceExisting` is true and a baseline
exists for the normalized key; otherwise — no baseline stored, or
`enhanceExisting` false even with a stored baseline — the operation
fails terminally with a 503 and carries no partial object.
Normalization sends `BLACK SPOT` to `black-spot`. -/
theorem generate_gateway_failure_fallback_chain (key : String)
    (store : String → Option RecommendationDoc) (e : String)
    (b : RecommendationDoc) (hb : store (normalizeKey key) = some b) :
    handleGenerateWith key true store (.error e)
      = ⟨200, true, some "database-fallback",
          some (.fallback (getSafeRecommendation b)), some warningText⟩
    ∧ (∀ (k2 : String) (s2 : String → Option RecommendationDoc),
        s2 (normalizeKey k2) = none →
          handleGenerateWith k2 true s2 (.error e)
            = ⟨503, false, none, none, none⟩)
    ∧ (∀ (k2 : String) (s2 : String → Option RecommendationDoc),
        handleGenerateWith k2 false s2 (.error e)
          = ⟨503, false, none, none, none⟩)
    ∧ normalizeKey "BLACK SPOT" = "black-spot" := by
  refine ⟨?_, ?_, ?_, by decide⟩
  · simp [handleGenerateWith, hb]
  · intro k2 s2 h2
    simp [handleGenerateWith, h2]
  · intro k2 s2
    simp [handleGenerateWith]

/-- Witness for the C6 amended theorem at the seeded store and a
concrete gateway error. -/
theorem generate_gateway_failure_fallback_chain_witness :
    handleGenerateWith "BLACK SPOT" true storeBlackSpotOnly (.error "boom")
      = ⟨200, true, some "database-fallback",
          some (.fallback (getSafeRecommendation blackSpotDoc)),
          some warningText⟩ :=
  (generate_gateway_failure_fallback_chain "BLACK SPOT" storeBlackSpotOnly
    "boom" blackSpotDoc (by decide)).1

/-- Claim C7: on gateway success with a baseline present under
`enhanceExisting`, the handler reports source `ai-enhanced`, keeps the
baseline's canonical fields unchanged (the payload embeds
`getSafeRecommendation b`, whose document is `b` itself), computes
`enhancedTreatment` / `enhancedPrevention` as exactly the AI steps not
already present in the baseline's corresponding list (set difference
by strict string equality), and attaches the AI `additionalNotes` and
`summary` as `additionalNotes` / `contextualAdvice`. -/
theorem generate_merge_set_difference (key : String)
    (store : String → Option RecommendationDoc) (b : RecommendationDoc)
    (ai : JsObj) (ts ps : List JsValue)
    (hb : store (normalizeKey key) = some b)
    (hts : getField ai "treatmentSteps" = some (.arr ts))
    (hps : getField ai "preventionSteps" = some (.arr ps)) :
    handleGenerateWith key true store (.ok ai)
      = ⟨200, true, some "ai-enhanced",
          some (.enhanced (getSafeRecommendation b)
            ⟨getField ai "additionalNotes", getField ai "summary",
             ts.filter (fun v => !(strMem b.treatmentSteps v)),
             ps.filter (fun v => !(strMem b.preventionSteps v))⟩), none⟩
    ∧ (getSafeRecommendation b).doc = b
    ∧ (∀ v, v ∈ ts.filter (fun v => !(strMem b.treatmentSteps v))
        ↔ v ∈ ts ∧ strMem b.treatmentSteps v = false)
    ∧ (∀ v, v ∈ ps.filter (fun v => !(strMem b.preventionSteps v))
        ↔ v ∈ ps ∧ strMem b.preventionSteps v = false)
    ∧ (∀ s : String, strMem b.treatmentSteps (.str s)
        = b.treatmentSteps.contains s) := by
  refine ⟨?_, rfl, ?_, ?_, fun s => rfl⟩
  · simp [handleGenerateWith, hb, mergeEnhanced, hts, hps]
  · intro v
    simp [List.mem_filter]
  · intro v
    simp [List.mem_filter]

/-- A concrete AI object for the C7 witness: one treatment step
duplicates a baseline step, the other is new. -/
def c7AiObj : JsObj :=
  [ ("summary", .str "Likely black spot."),
    ("symptoms", .arr [ .str "dark spots" ]),
    ("causes", .arr [ .str "fungus" ]),
    ("treatmentSteps", .arr
      [ .str "Improve air circulation by pruning dense growth",
        .str "Collect fallen fruit weekly" ]),
    ("preventionSteps", .arr [ .str "Mulch around the base" ]),
    ("additionalNotes", .str "Scout weekly during the wet season") ]

/-- Witness for the C7 theorem at the seeded baseline and `c7AiObj`. -/
theorem generate_merge_set_difference_witness :
    handleGenerateWith "black spot" true storeBlackSpotOnly (.ok c7AiObj)
      = ⟨200, true, some "ai-enhanced",
          some (.enhanced (getSafeRecommendation blackSpotDoc)
            ⟨getField c7AiObj "additionalNotes", getField c7AiObj "summary",
             [ .str "Collect fallen fruit weekly" ],
             [ .str "Mulch around the base" ]⟩), none⟩ := by
  have h := (generate_merge_set_difference "black spot" storeBlackSpotOnly
    blackSpotDoc c7AiObj
    [ .str "Improve air circulation by pruning dense growth",
      .str "Collect fallen fruit weekly" ]
    [ .str "Mulch around the base" ]
    (by decide) (by rfl) (by rfl)).1
  rw [h]
  rfl

/-! ## Theorems: conversation window and retention (C8, C9) -/

/-- Splitting a list by a predicate preserves total length. -/
theorem length_filter_not_add {α : Type} (l : List α) (p : α → Bool) :
    (l.filter (fun t => !(p t))).length + (l.filter p).length = l.length := by
  induction l with
  | nil => rfl
  | cons t ts ih =>
    by_cases h : p t = true
    · simp [List.filter_cons, h]
      omega
    · have hf : p t = false := by simpa using h
      simp [List.filter_cons, hf]
      omega

/-- Claim C8: against a session holding 20 turns with distinct
timestamps, the window with limit 8 contains exactly 8 turns, all
drawn from the session, in strictly chronological order, and they are
precisely the 8 most recent ones: every session turn left out is
strictly older than every turn in the window. -/
theorem conversationWindow_most_recent_chronological
    (db : List ChatTurn) (sid : String)
    (h20 : (db.filter (fun t => t.sessionId == sid)).length = 20)
    (hnd : ((db.filter (fun t => t.sessionId == sid)).map
      (fun t => t.createdAt)).Nodup) :
    (conversationWindow db sid 8).length = 8
    ∧ List.Pairwise (fun a b => a.createdAt < b.createdAt)
        (conversationWindow db sid 8)
    ∧ (∀ t ∈ conversationWindow db sid 8,
        t ∈ db.filter (fun t => t.sessionId == sid))
    ∧ (∀ t ∈ db.filter (fun t => t.sessionId == sid),
        t ∉ conversationWindow db sid 8 →
          ∀ u ∈ conversationWindow db sid 8, t.createdAt < u.createdAt) := by
  have hperm : (List.insertionSort newerFirst
      (db.filter (fun t => t.sessionId == sid))).Perm
        (db.filter (fun t => t.sessionId == sid)) :=
    List.perm_insertionSort newerFirst _
  have hsorted : List.Pairwise newerFirst (List.insertionSort newerFirst
      (db.filter (fun t => t.sessionId == sid))) :=
    List.sorted_insertionSort newerFirst _
  have hwin : conversationWindow db sid 8
      = ((List.insertionSort newerFirst
          (db.filter (fun t => t.sessionId == sid))).take 8).reverse := rfl
  have hslen : (List.insertionSort newerFirst
      (db.filter (fun t => t.sessionId == sid))).length = 20 :=
    hperm.length_eq.trans h20
  have hndS : ((List.insertionSort newerFirst
      (db.filter (fun t => t.sessionId == sid))).map
        (fun t => t.createdAt)).Nodup :=
    ((hperm.map (fun t => t.createdAt)).symm).nodup hnd
  have hpairNe : List.Pairwise
      (fun a b : ChatTurn => a.createdAt ≠ b.createdAt)
      (List.insertionSort newerFirst
        (db.filter (fun t => t.sessionId == sid))) :=
    List.pairwise_map.mp hndS
  rw [hwin]
  set s := List.insertionSort newerFirst
    (db.filter (fun t => t.sessionId == sid)) with hs
  have hPairTake : List.Pairwise newerFirst (s.take 8) :=
    List.Pairwise.sublist (List.take_sublist 8 s) hsorted
  have hPairTakeNe : List.Pairwise
      (fun a b : ChatTurn => a.createdAt ≠ b.createdAt) (s.take 8) :=
    List.Pairwise.sublist (List.take_sublist 8 s) hpairNe
  have happ : s.take 8 ++ s.drop 8 = s := List.take_append_drop 8 s
  have hcross : ∀ a ∈ s.take 8, ∀ b ∈ s.drop 8, newerFirst a b :=
    (List.pairwise_append.mp (by rw [happ]; exact hsorted)).2.2
  have hcrossNe : ∀ a ∈ s.take 8, ∀ b ∈ s.drop 8,
      a.createdAt ≠ b.createdAt :=
    (List.pairwise_append.mp (by rw [happ]; exact hpairNe)).2.2
  refine ⟨?_, ?_, ?_, ?_⟩
  · rw [List.length_reverse, List.length_take, hslen]
    decide
  · rw [List.pairwise_reverse]
    have hcomb : List.Pairwise
        (fun a b : ChatTurn => newerFirst a b ∧ a.createdAt ≠ b.createdAt)
        (s.take 8) := hPairTake.and hPairTakeNe
    exact hcomb.imp (fun hab => lt_of_le_of_ne hab.1 (Ne.symm hab.2))
  · intro t ht
    exact hperm.subset ((List.take_sublist 8 s).subset (List.mem_reverse.mp ht))
  · intro t htl htnin u hu
    have hts : t ∈ s := hperm.mem_iff.mpr htl
    have hut : u ∈ s.take 8 := List.mem_reverse.mp hu
    have htsplit : t ∈ s.take 8 ++ s.drop 8 := by
      rw [happ]
      exact hts
    have htdrop : t ∈ s.drop 8 := by
      rcases List.mem_append.mp htsplit with h | h
      · exact absurd (List.mem_reverse.mpr h) htnin
      · exact h
    exact lt_of_le_of_ne (hcross u hut t htdrop)
      (Ne.symm (hcrossNe u hut t htdrop))

/-- A session of 20 turns with distinct timestamps for the C8
witness. -/
def c8Db : List ChatTurn :=
  (List.range 20).map (fun i => ChatTurn.mk "s" "user" "m" (i : Int))

/-- Witness for the C8 theorem at the concrete 20-turn session. -/
theorem conversationWindow_most_recent_chronological_witness :
    (conversationWindow c8Db "s" 8).length = 8 :=
  (conversationWindow_most_recent_chronological c8Db "s"
    (by decide) (by decide)).1

/-- Claim C9: a 30-day retention run keeps exactly the turns with
`createdAt` on or after `now - 30` days, deletes every turn strictly
before that cutoff, and reports as its count the number of deleted
turns (so kept plus deleted is the collection size). -/
theorem cleanup_deletes_exactly_older_than_cutoff
    (db : List ChatTurn) (now : Int) :
    (∀ t, t ∈ (cleanupOldMessages db now 30).1 ↔
      t ∈ db ∧ ¬ t.createdAt < now - 30 * msPerDay)
    ∧ (∀ t ∈ db, t.createdAt < now - 30 * msPerDay →
        t ∉ (cleanupOldMessages db now 30).1)
    ∧ (cleanupOldMessages db now 30).2
        = db.countP (fun t => decide (t.createdAt < now - 30 * msPerDay))
    ∧ (cleanupOldMessages db now 30).1.length + (cleanupOldMessages db now 30).2
        = db.length := by
  refine ⟨?_, ?_, ?_, ?_⟩
  · intro t
    simp [cleanupOldMessages, List.mem_filter]
  · intro t ht hlt
    simp [cleanupOldMessages, List.mem_filter, hlt]
  · simp [cleanupOldMessages, List.countP_eq_length_filter]
  · exact length_filter_not_add db _

/-- A concrete four-turn collection for the C9 witness: two turns
older than the cutoff, two on or after it. -/
def c9Db : List ChatTurn :=
  [ ⟨"s", "user", "old", 0⟩,
    ⟨"s", "assistant", "older", 1000⟩,
    ⟨"s", "user", "cutoff", 2592000000000⟩,
    ⟨"s", "assistant", "new", 2592000005000⟩ ]

/-- Witness for the C9 theorem at `c9Db` with `now` equal to
`2592000000000 + 30` days, so the cutoff is exactly `2592000000000`:
the two strictly-older turns are deleted, the turn exactly at the
cutoff is kept. -/
theorem cleanup_deletes_exactly_older_than_cutoff_witness :
    (cleanupOldMessages c9Db (2592000000000 + 30 * msPerDay) 30).2
      = c9Db.countP (fun t =>
          decide (t.createdAt < (2592000000000 + 30 * msPerDay) - 30 * msPerDay))
    ∧ (cleanupOldMessages c9Db (2592000000000 + 30 * msPerDay) 30).2 = 2 :=
  ⟨(cleanup_deletes_exactly_older_than_cutoff c9Db
      (2592000000000 + 30 * msPerDay)).2.2.1, by decide⟩
